import Mathlib

set_option autoImplicit false

/-!
Verification development for the etcd-client-py coordination layer.

The definitions below are a shallow embedding of the Rust sources:
* `src/error.rs`   — the error taxonomy (`EtcdError`, `PyErr`);
* `src/watch_event.rs` / `src/watch_event_stream.rs` — watch events and the
  buffered event cursor `PyWatchEventStream::next`;
* `src/watch.rs`   — the session-level `PyWatch::__anext__` wrapper;
* `src/lock_manager.rs` — `EtcdLockManager::handle_aenter` / `handle_aexit`;
* the runtime context counter (`enter_context` / `exit_context`), which is
  referenced from `src/client.rs` but whose definition is not part of the
  sources; it is modelled from the specification.

Backing-store interactions (connect, lease grant/revoke, lock, unlock, the
watch push stream) are represented by explicit environment records whose
fields give the outcome of each call, and every embedded operation returns,
besides its result, the trace of backing-store calls it performed and the
state of the background keepalive task.
-/

/-- Errors of the backing-store client (`etcd_client::Error`).  The only
structure the bridged code inspects is whether an error is a gRPC status
(and its code), so all remaining variants (transport, io, …) are collapsed
into `other`. -/
inductive EtcdError where
  | grpcStatus (code : Nat) (msg : String)
  | other (msg : String)
deriving DecidableEq, Repr

/-- The numeric value of `tonic::Code::NotFound`. -/
def notFoundCode : Nat := 5

/-- Python-level errors raised by the bridged code (`src/error.rs`):
`GRpcStatusError`, the family of generic client errors (all subclasses of
`ClientError` other than `LockError`), and the dedicated `LockError`. -/
inductive PyErr where
  | grpcStatusError (code : Nat) (msg : String)
  | clientError (msg : String)
  | lockError (msg : String)
deriving DecidableEq, Repr

/-- Conversion `PyClientError -> PyErr` from `src/error.rs`: a gRPC status
becomes `GRpcStatusError`; every other variant becomes one of the generic
client-error classes. -/
def pyClientErrorToPyErr : EtcdError → PyErr
  | .grpcStatus code msg => .grpcStatusError code msg
  | .other msg => .clientError msg

/-- Event kind (`src/watch_event.rs`, `PyWatchEventType`). -/
inductive WatchEventType where
  | put
  | delete
deriving DecidableEq, Repr

/-- A change notification (`src/watch_event.rs`, `PyWatchEvent`). -/
structure WatchEvent where
  key : List Nat
  value : List Nat
  event : WatchEventType
  prev_value : Option (List Nat)
deriving DecidableEq, Repr

/-- One message of the server push stream: a batch of events or an error.
Exhaustion of the list of messages models the closed stream (`next()`
returning `None` at the `tokio` stream level). -/
inductive Batch where
  | ok (evs : List WatchEvent)
  | error (e : EtcdError)
deriving DecidableEq, Repr

/-- State of the buffered event cursor (`src/watch_event_stream.rs`,
`PyWatchEventStream`): the underlying push stream, the append-only event
buffer, the cursor index, and the `once` flag. -/
structure CursorState where
  stream : List Batch
  events : List WatchEvent
  index : Nat
  once : Bool
deriving DecidableEq, Repr

/-- Possible outcomes of one `PyWatchEventStream::next` call:
`yield` models `Some(Ok(event))`, `err` models `Some(Err(error))`,
`endOfStream` models `None`, and `panic` models the Rust panic raised by an
out-of-bounds `events[*index]` access. -/
inductive NextOutcome where
  | yield (e : WatchEvent)
  | err (e : EtcdError)
  | endOfStream
  | panic
deriving DecidableEq, Repr

/-- Shallow embedding of `PyWatchEventStream::next` (src/watch_event_stream.rs,
lines 26-58).  `events[idx]?` mirrors the guarded `*index < events.len()`
check; in the freshly-received-batch branch the source indexes the buffer
unguarded (`events[*index]`) after only an `is_empty` test, so an index that
is out of bounds there is modelled as `panic`. -/
def cursorNext (s : CursorState) : NextOutcome × CursorState :=
  if s.once && decide (s.index > 0) then
    (.endOfStream, s)
  else
    match s.events[s.index]? with
    | some e => (.yield e, { s with index := s.index + 1 })
    | none =>
      match s.stream with
      | [] => (.endOfStream, s)
      | b :: rest =>
        match b with
        | Batch.error e => (.err e, { s with stream := rest })
        | Batch.ok evs =>
          let events' := s.events ++ evs
          if events'.isEmpty then
            (.endOfStream, { s with events := events', stream := rest })
          else
            match events'[s.index]? with
            | some e =>
              (.yield e, { s with events := events', stream := rest, index := s.index + 1 })
            | none => (.panic, { s with events := events', stream := rest })

/-- Iterated calls to `cursorNext`, collecting the outcomes in order. -/
def cursorRun (s : CursorState) : Nat → List NextOutcome × CursorState
  | 0 => ([], s)
  | n + 1 =>
    ((cursorNext s).1 :: (cursorRun (cursorNext s).2 n).1,
      (cursorRun (cursorNext s).2 n).2)

/-- The events delivered by a list of outcomes, in order. -/
def yieldsOf : List NextOutcome → List WatchEvent
  | [] => []
  | .yield e :: rest => e :: yieldsOf rest
  | _ :: rest => yieldsOf rest

/-- All events carried by the `Ok` batches of a stream suffix, in emission
order (error messages carry no events). -/
def okFlatten : List Batch → List WatchEvent
  | [] => []
  | Batch.ok evs :: rest => evs ++ okFlatten rest
  | Batch.error _ :: rest => okFlatten rest

/-- Events that the cursor has not yet delivered: the unread tail of the
buffer followed by everything still in the stream. -/
def pendingOf (s : CursorState) : List WatchEvent :=
  s.events.drop s.index ++ okFlatten s.stream

/-- Handle of the spawned background keepalive task.  The only operation the
bridged code performs on it is `abort()`, so the handle is reduced to its
aborted flag. -/
structure TaskHandle where
  aborted : Bool
deriving DecidableEq, Repr

/-- State of `EtcdLockManager` (src/lock_manager.rs, lines 40-48).  The
timeout is an `f64` number of seconds in the source; only its presence is
ever branched on, and it is modelled as a rational. -/
structure EtcdLockManager where
  lock_name : List Nat
  ttl : Option Int
  timeout_seconds : Option Rat
  lock_id : Option (List Nat)
  lease_id : Option Int
  lease_keepalive_task : Option TaskHandle
deriving DecidableEq, Repr

/-- `EtcdLockManager::new` (src/lock_manager.rs, lines 51-61). -/
def EtcdLockManager.new (lock_name : List Nat) (timeout : Option Rat)
    (ttl : Option Int) : EtcdLockManager :=
  { lock_name := lock_name
    ttl := ttl
    timeout_seconds := timeout
    lock_id := none
    lease_id := none
    lease_keepalive_task := none }

/-- One backing-store call issued by the lock manager, recorded in order. -/
inductive StoreCall where
  | connect
  | leaseGrant (ttl : Int)
  | lock (name : List Nat) (lease : Option Int)
  | leaseRevoke (id : Int)
  | unlock (key : List Nat)
deriving DecidableEq, Repr

deriving instance DecidableEq for Except

/-- Outcomes supplied by the backing store for one `handle_aenter` run.
`timedOut = true` means the `tokio::time::timeout` wrapper elapsed before
`try_lock` completed; this is only possible when a timeout was supplied, so
the effective outcome is `Elapsed` exactly when `timeout_seconds.isSome &&
timedOut`. -/
structure AenterEnv where
  connectResult : Option EtcdError
  leaseGrantResult : Except EtcdError Int
  timedOut : Bool
  tryLockResult : Except EtcdError (List Nat)
  revokeResult : Option EtcdError
deriving DecidableEq, Repr

/-- Result of one `handle_aenter` run: the manager state after the call (the
`scopeguard` closure included), the Python-level result, whether a keepalive
task was spawned during the call, whether the `scopeguard` aborted a task on
return, and the trace of backing-store calls. -/
structure AenterResult where
  manager : EtcdLockManager
  result : Except PyErr Unit
  keepaliveSpawned : Bool
  keepaliveAbortedAtReturn : Bool
  calls : List StoreCall
deriving DecidableEq, Repr

/-- The message of the lock-timeout error: `tokio::time::error::Elapsed`
displays as this string and `handle_aenter` feeds it to `LockError::new_err`. -/
def lockTimeoutMsg : String := "deadline has elapsed"

/-- Abort of the keepalive task, as performed by the `scopeguard` closure in
`handle_aenter` and by the explicit abort in `handle_aexit`: if a task handle
is present it becomes aborted (a no-op on an already-aborted task). -/
def abortKeepalive (m : EtcdLockManager) : EtcdLockManager :=
  { m with lease_keepalive_task := m.lease_keepalive_task.map fun _ => ⟨true⟩ }

/-- Continuation of `handle_aenter` after the lease block (src/lock_manager.rs,
lines 113-140): the bounded lock attempt and the dispatch on its outcome.
`m1` is the manager state after the lease block, `calls0` the trace so far and
`spawned` whether this call spawned the keepalive task.  Every return path
below runs the `scopeguard` closure, i.e. `abortKeepalive`. -/
def aenterAfterLease (m1 : EtcdLockManager) (env : AenterEnv)
    (calls0 : List StoreCall) (spawned : Bool) : AenterResult :=
  let callsLock := calls0 ++ [StoreCall.lock m1.lock_name m1.lease_id]
  if m1.timeout_seconds.isSome && env.timedOut then
    match m1.lease_id with
    | some leaseId =>
      let calls1 := callsLock ++ [StoreCall.leaseRevoke leaseId]
      match env.revokeResult with
      | some (.grpcStatus code msg) =>
        if code ≠ notFoundCode then
          { manager := abortKeepalive m1
            result := .error (.grpcStatusError code msg)
            keepaliveSpawned := spawned
            keepaliveAbortedAtReturn := m1.lease_keepalive_task.isSome
            calls := calls1 }
        else
          { manager := abortKeepalive m1
            result := .error (.lockError lockTimeoutMsg)
            keepaliveSpawned := spawned
            keepaliveAbortedAtReturn := m1.lease_keepalive_task.isSome
            calls := calls1 }
      | _ =>
        { manager := abortKeepalive m1
          result := .error (.lockError lockTimeoutMsg)
          keepaliveSpawned := spawned
          keepaliveAbortedAtReturn := m1.lease_keepalive_task.isSome
          calls := calls1 }
    | none =>
      { manager := abortKeepalive m1
        result := .error (.lockError lockTimeoutMsg)
        keepaliveSpawned := spawned
        keepaliveAbortedAtReturn := m1.lease_keepalive_task.isSome
        calls := callsLock }
  else
    match env.tryLockResult with
    | .ok key =>
      let m2 := { m1 with lock_id := some key }
      { manager := abortKeepalive m2
        result := .ok ()
        keepaliveSpawned := spawned
        keepaliveAbortedAtReturn := m2.lease_keepalive_task.isSome
        calls := callsLock }
    | .error e =>
      { manager := abortKeepalive m1
        result := .error (pyClientErrorToPyErr e)
        keepaliveSpawned := spawned
        keepaliveAbortedAtReturn := m1.lease_keepalive_task.isSome
        calls := callsLock }

/-- Shallow embedding of `EtcdLockManager::handle_aenter` (src/lock_manager.rs,
lines 77-141).  The `scopeguard` wrapping `self` is armed right after the
connect succeeds and its closure — aborting the keepalive task if one is
present — runs on every return path after that point, the success path
included; the connect-failure return precedes the guard. -/
def handle_aenter (m : EtcdLockManager) (env : AenterEnv) : AenterResult :=
  match env.connectResult with
  | some e =>
    { manager := m
      result := .error (pyClientErrorToPyErr e)
      keepaliveSpawned := false
      keepaliveAbortedAtReturn := false
      calls := [.connect] }
  | none =>
    match m.ttl with
    | some ttl =>
      match env.leaseGrantResult with
      | .error e =>
        { manager := abortKeepalive m
          result := .error (pyClientErrorToPyErr e)
          keepaliveSpawned := false
          keepaliveAbortedAtReturn := m.lease_keepalive_task.isSome
          calls := [.connect, .leaseGrant ttl] }
      | .ok leaseId =>
        let m1 := { m with lease_keepalive_task := some ⟨false⟩, lease_id := some leaseId }
        aenterAfterLease m1 env [.connect, .leaseGrant ttl] true
    | none =>
      let m1 := { m with lease_id := none }
      aenterAfterLease m1 env [.connect] false

/-- The message of the precondition error raised by `handle_aexit` when no
lock is held (src/lock_manager.rs, lines 150-153). -/
def releaseBeforeAcquireMsg : String :=
  "Attempting to release EtcdLock before it has been acquired!"

/-- Outcomes supplied by the backing store for one `handle_aexit` run. -/
structure AexitEnv where
  connectResult : Option EtcdError
  revokeResult : Option EtcdError
  unlockResult : Option EtcdError
deriving DecidableEq, Repr

/-- Result of one `handle_aexit` run. -/
structure AexitResult where
  manager : EtcdLockManager
  result : Except PyErr Unit
  calls : List StoreCall
deriving DecidableEq, Repr

/-- Shallow embedding of `EtcdLockManager::handle_aexit` (src/lock_manager.rs,
lines 143-181).  The clearing of `lock_id` / `lease_id` sits after the match
on `lock_id`, so the early returns — a revoke failure with a non-NotFound
status, or an unlock failure — skip it; a revoke failure that is not a gRPC
status falls through the `if let` and is swallowed. -/
def handle_aexit (m : EtcdLockManager) (env : AexitEnv) : AexitResult :=
  match env.connectResult with
  | some e =>
    { manager := m, result := .error (pyClientErrorToPyErr e), calls := [.connect] }
  | none =>
    match m.lock_id with
    | none =>
      { manager := m
        result := .error (.lockError releaseBeforeAcquireMsg)
        calls := [.connect] }
    | some lockId =>
      let m1 := abortKeepalive m
      match m.lease_id with
      | some leaseId =>
        match env.revokeResult with
        | some (.grpcStatus code msg) =>
          if code ≠ notFoundCode then
            { manager := m1
              result := .error (.grpcStatusError code msg)
              calls := [.connect, .leaseRevoke leaseId] }
          else
            { manager := { m1 with lock_id := none, lease_id := none }
              result := .ok ()
              calls := [.connect, .leaseRevoke leaseId] }
        | _ =>
          { manager := { m1 with lock_id := none, lease_id := none }
            result := .ok ()
            calls := [.connect, .leaseRevoke leaseId] }
      | none =>
        match env.unlockResult with
        | some e =>
          { manager := m1
            result := .error (pyClientErrorToPyErr e)
            calls := [.connect, .unlock lockId] }
        | none =>
          { manager := { m1 with lock_id := none, lease_id := none }
            result := .ok ()
            calls := [.connect, .unlock lockId] }

/-- Outcome of one `PyWatch::__anext__` poll (src/watch.rs, lines 86-121):
an event, a raised client error, `StopAsyncIteration`, or a propagated Rust
panic from the cursor. -/
inductive AnextOut where
  | item (e : WatchEvent)
  | raise (e : EtcdError)
  | stopIteration
  | panic
deriving DecidableEq, Repr

/-- Session-level watch state after `init()` has established the stream: the
event cursor plus whether `watcher.cancel()` has been issued. -/
structure SessionState where
  cursor : CursorState
  canceled : Bool
deriving DecidableEq, Repr

/-- Shallow embedding of the post-init body of `PyWatch::__anext__`
(src/watch.rs, lines 105-117): polls the cursor; on any `Some(result)` —
event or error alike — it cancels the server-side watch when `once` is set,
then returns the result; on `None` it raises `StopAsyncIteration`. -/
def sessionAnext (w : SessionState) : AnextOut × SessionState :=
  let (out, c') := cursorNext w.cursor
  match out with
  | .yield e => (.item e, { cursor := c', canceled := w.canceled || c'.once })
  | .err e => (.raise e, { cursor := c', canceled := w.canceled || c'.once })
  | .endOfStream => (.stopIteration, { cursor := c', canceled := w.canceled })
  | .panic => (.panic, { cursor := c', canceled := w.canceled })

/-- Iterated `__anext__` polls, collecting the outcomes in order. -/
def sessionRun (w : SessionState) : Nat → List AnextOut × SessionState
  | 0 => ([], w)
  | n + 1 =>
    ((sessionAnext w).1 :: (sessionRun (sessionAnext w).2 n).1,
      (sessionRun (sessionAnext w).2 n).2)

/-- Modelled from the spec: `RuntimeBridge.enter_context`, called from
`PyClient::__aenter__` (src/client.rs, line 135) but defined in a runtime
module that is not among the sources.  Spec 4.1: paired calls bracketing one
client session over an active-context counter. -/
def enter_context (c : Int) : Int := c + 1

/-- Modelled from the spec: `RuntimeBridge.exit_context`, called from
`PyClient::__aexit__` (src/client.rs, line 184) but defined in a runtime
module that is not among the sources.  Spec 4.1: decrements the counter and
"returns true iff this was the last open session (count transitioned from
1 to 0)". -/
def exit_context (c : Int) : Int × Bool := (c - 1, decide (c - 1 = 0))

/-- One bridge-context operation. -/
inductive CtxOp where
  | enter
  | exit
deriving DecidableEq, Repr

/-- Execution of a sequence of context operations from counter value `c`,
returning the final counter and the results of the `exit_context` calls in
order. -/
def runCtx (c : Int) : List CtxOp → Int × List Bool
  | [] => (c, [])
  | CtxOp.enter :: ops => runCtx (enter_context c) ops
  | CtxOp.exit :: ops =>
    ((runCtx (exit_context c).1 ops).1,
      (exit_context c).2 :: (runCtx (exit_context c).1 ops).2)

/-- Every counter value observed while executing a sequence of context
operations, the initial and final values included. -/
def ctxTrace (c : Int) : List CtxOp → List Int
  | [] => [c]
  | CtxOp.enter :: ops => c :: ctxTrace (enter_context c) ops
  | CtxOp.exit :: ops => c :: ctxTrace (exit_context c).1 ops

def c1Manager : EtcdLockManager := EtcdLockManager.new [106, 111, 98] none (some 10)

def c1Env : AenterEnv :=
  { connectResult := none
    leaseGrantResult := .ok 7
    timedOut := false
    tryLockResult := .ok [107]
    revokeResult := none }

/-- C1: the claim states that a successful `handle_aenter` with
`ttl = Some(t)` leaves the background keepalive task running until
`release()`.  The code contradicts it: the `scopeguard` closure armed at
line 83 of src/lock_manager.rs has no defuse, so it aborts the keepalive
task on every return path of `handle_aenter`, the success path included.
Evaluated at a successful acquisition (`ttl = Some(10)`, lease 7 granted,
lock granted): the call returns success, a keepalive task was spawned, and
the task has been aborted by the time the call returns. -/
theorem aenter_success_aborts_keepalive :
    (handle_aenter c1Manager c1Env).result = .ok () ∧
    (handle_aenter c1Manager c1Env).keepaliveSpawned = true ∧
    (handle_aenter c1Manager c1Env).keepaliveAbortedAtReturn = true ∧
    (handle_aenter c1Manager c1Env).manager.lease_keepalive_task = some ⟨true⟩ ∧
    (handle_aenter c1Manager c1Env).manager.lock_id = some [107] ∧
    (handle_aenter c1Manager c1Env).manager.lease_id = some 7 := by
  decide

def c6State : CursorState :=
  { stream := [Batch.ok []], events := [], index := 0, once := false }

def c6ClosedState : CursorState :=
  { stream := [], events := [], index := 0, once := false }

/-- C6 counterexample: the claim states that an empty batch received with an
exhausted buffer is treated as "no event yet" and iteration continues.  On a
fresh cursor whose stream delivers one empty batch while it is still open,
`next()` returns `None` — exactly the end-of-stream signal, identical to
what a closed stream produces — so iteration stops. -/
theorem empty_batch_end_counterexample :
    (cursorNext c6State).1 = NextOutcome.endOfStream ∧
    (cursorNext c6ClosedState).1 = NextOutcome.endOfStream := by
  decide

/-- C6 (amended): when the buffer is exhausted, nothing was ever buffered,
and the underlying stream delivers an empty batch, `next()` returns `None` —
it signals end-of-stream even though the stream is still open, and iteration
does not continue. -/
theorem empty_batch_signals_end (rest : List Batch) (once : Bool) :
    cursorNext { stream := Batch.ok [] :: rest, events := [], index := 0, once := once } =
      (.endOfStream, { stream := rest, events := [], index := 0, once := once }) := by
  cases once <;> rfl

def c10State : CursorState :=
  { stream := [Batch.ok []]
    events := [{ key := [1], value := [2], event := .put, prev_value := none }]
    index := 1
    once := false }

/-- C10: the claim states that every buffer read performed by `next()` is in
bounds.  The code contradicts it: after one event has been yielded
(`index = 1`, buffer length 1), an empty batch makes the
freshly-received-batch branch pass its `!events.is_empty()` test and read
`events[*index]` with `*index == events.len()` — an out-of-bounds access
that panics (src/watch_event_stream.rs, lines 47-50). -/
theorem empty_batch_out_of_bounds :
    (cursorNext c10State).1 = NextOutcome.panic ∧
    c10State.index = c10State.events.length := by
  decide

def c3Manager : EtcdLockManager := EtcdLockManager.new [1] none none

def c3FailEnv : AexitEnv :=
  { connectResult := some (.other "connection refused")
    revokeResult := none
    unlockResult := none }

def c3OkEnv : AexitEnv :=
  { connectResult := none, revokeResult := none, unlockResult := none }

/-- C3 counterexample: `handle_aexit` connects to the store before checking
`lock_id` (src/lock_manager.rs, lines 144-147), so `release()` without a
prior `acquire()` is not guaranteed to fail with the precondition error:
when the connection attempt fails, a generic client error is raised
instead, and a connection to the backing store was attempted. -/
theorem aexit_connect_error_not_precondition :
    (handle_aexit c3Manager c3FailEnv).result =
      .error (.clientError "connection refused") ∧
    (handle_aexit c3Manager c3FailEnv).result ≠
      .error (.lockError releaseBeforeAcquireMsg) ∧
    (handle_aexit c3Manager c3FailEnv).calls = [StoreCall.connect] := by
  decide

/-- C3 (amended): provided the initial connection to the store succeeds,
`release()` on a manager whose `lock_id` is `None` always fails with the
precondition `LockError`, performs no backing-store operation beyond that
connection (no revoke, no unlock), and leaves the manager unchanged. -/
theorem aexit_before_acquire (m : EtcdLockManager) (env : AexitEnv)
    (hconn : env.connectResult = none) (hlock : m.lock_id = none) :
    (handle_aexit m env).result = .error (.lockError releaseBeforeAcquireMsg) ∧
    (handle_aexit m env).calls = [StoreCall.connect] ∧
    (handle_aexit m env).manager = m := by
  simp [handle_aexit, hconn, hlock]

/-- Witness for `aexit_before_acquire` at a concrete manager and environment. -/
theorem aexit_before_acquire_witness :
    c3OkEnv.connectResult = none ∧ c3Manager.lock_id = none ∧
    ((handle_aexit c3Manager c3OkEnv).result =
        .error (.lockError releaseBeforeAcquireMsg) ∧
      (handle_aexit c3Manager c3OkEnv).calls = [StoreCall.connect] ∧
      (handle_aexit c3Manager c3OkEnv).manager = c3Manager) :=
  ⟨rfl, rfl, aexit_before_acquire c3Manager c3OkEnv rfl rfl⟩

def c4Manager : EtcdLockManager :=
  { lock_name := [1]
    ttl := none
    timeout_seconds := none
    lock_id := some [9]
    lease_id := none
    lease_keepalive_task := none }

def c4FailEnv : AexitEnv :=
  { connectResult := none
    revokeResult := none
    unlockResult := some (.other "unlock failed") }

def c4OkEnv : AexitEnv :=
  { connectResult := none, revokeResult := none, unlockResult := none }

/-- C4 counterexample: the clears of `lock_id` / `lease_id` sit after the
match in `handle_aexit` (src/lock_manager.rs, lines 177-178) and the unlock
failure path returns early, so a failed unlock leaves `lock_id` set; a
second `release()` then repeats the unlock call against the backing store
and succeeds, instead of failing with the precondition error. -/
theorem aexit_unlock_failure_retains_state :
    (handle_aexit c4Manager c4FailEnv).result = .error (.clientError "unlock failed") ∧
    (handle_aexit c4Manager c4FailEnv).manager.lock_id = some [9] ∧
    (handle_aexit (handle_aexit c4Manager c4FailEnv).manager c4OkEnv).calls =
      [StoreCall.connect, StoreCall.unlock [9]] ∧
    (handle_aexit (handle_aexit c4Manager c4FailEnv).manager c4OkEnv).result = .ok () := by
  decide

/-- C4 (amended): a `release()` that gets past the precondition check clears
`lock_id` and `lease_id` exactly when it returns success (which includes a
revoke answered "not found" and a revoke failure that is not a gRPC status);
after such a successful release a second `release()` fails cleanly with the
precondition error and performs no backing-store call beyond the connection.
When the unlock call or the lease revoke fails (the latter with a
non-NotFound status), the error propagates and `lock_id` stays set, so a
second `release()` retries the backing store instead. -/
theorem aexit_state_clearing (m : EtcdLockManager) (env env2 : AexitEnv) (k : List Nat)
    (hconn : env.connectResult = none) (hlock : m.lock_id = some k)
    (hconn2 : env2.connectResult = none) :
    ((handle_aexit m env).result = .ok () →
      (handle_aexit m env).manager.lock_id = none ∧
      (handle_aexit m env).manager.lease_id = none ∧
      (handle_aexit (handle_aexit m env).manager env2).result =
        .error (.lockError releaseBeforeAcquireMsg) ∧
      (handle_aexit (handle_aexit m env).manager env2).calls = [StoreCall.connect]) ∧
    (∀ e, m.lease_id = none → env.unlockResult = some e →
      (handle_aexit m env).result = .error (pyClientErrorToPyErr e) ∧
      (handle_aexit m env).manager.lock_id = some k) ∧
    (∀ code msg lid, env.revokeResult = some (.grpcStatus code msg) →
      code ≠ notFoundCode → m.lease_id = some lid →
      (handle_aexit m env).result = .error (.grpcStatusError code msg) ∧
      (handle_aexit m env).manager.lock_id = some k) := by
  refine ⟨?_, ?_, ?_⟩
  · intro hok
    cases hm : m.lease_id with
    | none =>
      cases hu : env.unlockResult with
      | some e =>
        exfalso
        simp [handle_aexit, hconn, hlock, hm, hu] at hok
      | none =>
        simp [handle_aexit, hconn, hlock, hm, hu, hconn2]
    | some lid =>
      cases hr : env.revokeResult with
      | none =>
        simp [handle_aexit, hconn, hlock, hm, hr, hconn2]
      | some e =>
        cases e with
        | other msg =>
          simp [handle_aexit, hconn, hlock, hm, hr, hconn2]
        | grpcStatus code msg =>
          by_cases hcode : code = notFoundCode
          · simp [handle_aexit, hconn, hlock, hm, hr, hcode, hconn2]
          · exfalso
            simp [handle_aexit, hconn, hlock, hm, hr, hcode] at hok
  · intro e hm hu
    simp [handle_aexit, abortKeepalive, hconn, hlock, hm, hu]
  · intro code msg lid hr hcode hm
    simp [handle_aexit, abortKeepalive, hconn, hlock, hm, hr, hcode]

/-- Witness for `aexit_state_clearing` at a concrete held lock and a fully
successful environment. -/
theorem aexit_state_clearing_witness :
    c4OkEnv.connectResult = none ∧ c4Manager.lock_id = some [9] ∧
    (((handle_aexit c4Manager c4OkEnv).result = .ok () →
        (handle_aexit c4Manager c4OkEnv).manager.lock_id = none ∧
        (handle_aexit c4Manager c4OkEnv).manager.lease_id = none ∧
        (handle_aexit (handle_aexit c4Manager c4OkEnv).manager c4OkEnv).result =
          .error (.lockError releaseBeforeAcquireMsg) ∧
        (handle_aexit (handle_aexit c4Manager c4OkEnv).manager c4OkEnv).calls =
          [StoreCall.connect]) ∧
      (∀ e, c4Manager.lease_id = none → c4OkEnv.unlockResult = some e →
        (handle_aexit c4Manager c4OkEnv).result = .error (pyClientErrorToPyErr e) ∧
        (handle_aexit c4Manager c4OkEnv).manager.lock_id = some [9]) ∧
      (∀ code msg lid, c4OkEnv.revokeResult = some (.grpcStatus code msg) →
        code ≠ notFoundCode → c4Manager.lease_id = some lid →
        (handle_aexit c4Manager c4OkEnv).result = .error (.grpcStatusError code msg) ∧
        (handle_aexit c4Manager c4OkEnv).manager.lock_id = some [9])) :=
  ⟨rfl, rfl, aexit_state_clearing c4Manager c4OkEnv c4OkEnv [9] rfl rfl rfl⟩

def c5Manager : EtcdLockManager := EtcdLockManager.new [1] (some 5) (some 10)

def c5Env : AenterEnv :=
  { connectResult := none
    leaseGrantResult := .ok 7
    timedOut := false
    tryLockResult := .error (.other "lock failed")
    revokeResult := none }

/-- C5 counterexample: when the lock attempt itself fails (not a timeout),
`handle_aenter` propagates the error without revoking the lease it granted
(src/lock_manager.rs, line 127: the `Ok(Err(_))` arm performs no revoke), so
a residual server-side lease attributable to the attempt remains at the time
the error is returned. -/
theorem aenter_lock_error_keeps_lease :
    (handle_aenter c5Manager c5Env).result = .error (.clientError "lock failed") ∧
    (handle_aenter c5Manager c5Env).manager.lease_id = some 7 ∧
    ¬ (StoreCall.leaseRevoke 7 ∈ (handle_aenter c5Manager c5Env).calls) := by
  decide

/-- C5 (amended): when an acquisition with a granted lease fails because the
overall timeout elapsed, a revoke of that lease is issued before the error
is returned; when it fails because the lock attempt itself returned an
error, the error is propagated without any revoke and the lease is still
recorded in the manager. -/
theorem aenter_cleanup_on_failure (m : EtcdLockManager) (env : AenterEnv) (t lid : Int)
    (hconn : env.connectResult = none) (httl : m.ttl = some t)
    (hgrant : env.leaseGrantResult = .ok lid) :
    (env.timedOut = true → m.timeout_seconds.isSome = true →
      StoreCall.leaseRevoke lid ∈ (handle_aenter m env).calls ∧
      ∃ er, (handle_aenter m env).result = .error er) ∧
    (env.timedOut = false → ∀ e0, env.tryLockResult = .error e0 →
      (handle_aenter m env).result = .error (pyClientErrorToPyErr e0) ∧
      ¬ (StoreCall.leaseRevoke lid ∈ (handle_aenter m env).calls) ∧
      (handle_aenter m env).manager.lease_id = some lid) := by
  constructor
  · intro htime hbound
    cases hr : env.revokeResult with
    | none =>
      simp [handle_aenter, aenterAfterLease, hconn, httl, hgrant, htime, hbound, hr]
    | some e =>
      cases e with
      | other msg =>
        simp [handle_aenter, aenterAfterLease, hconn, httl, hgrant, htime, hbound, hr]
      | grpcStatus code msg =>
        by_cases hcode : code = notFoundCode
        · simp [handle_aenter, aenterAfterLease, hconn, httl, hgrant, htime, hbound, hr, hcode]
        · simp [handle_aenter, aenterAfterLease, hconn, httl, hgrant, htime, hbound, hr, hcode]
  · intro htime e0 htry
    simp [handle_aenter, aenterAfterLease, abortKeepalive, hconn, httl, hgrant, htime, htry]

def c5TimeoutEnv : AenterEnv :=
  { connectResult := none
    leaseGrantResult := .ok 7
    timedOut := true
    tryLockResult := .ok [9]
    revokeResult := none }

/-- Witness for `aenter_cleanup_on_failure` at a concrete manager with both
a lease TTL and a timeout, in an environment where the timeout elapses. -/
theorem aenter_cleanup_on_failure_witness :
    c5TimeoutEnv.connectResult = none ∧ c5Manager.ttl = some 10 ∧
    c5TimeoutEnv.leaseGrantResult = .ok 7 ∧
    ((c5TimeoutEnv.timedOut = true → c5Manager.timeout_seconds.isSome = true →
        StoreCall.leaseRevoke 7 ∈ (handle_aenter c5Manager c5TimeoutEnv).calls ∧
        ∃ er, (handle_aenter c5Manager c5TimeoutEnv).result = .error er) ∧
      (c5TimeoutEnv.timedOut = false → ∀ e0, c5TimeoutEnv.tryLockResult = .error e0 →
        (handle_aenter c5Manager c5TimeoutEnv).result = .error (pyClientErrorToPyErr e0) ∧
        ¬ (StoreCall.leaseRevoke 7 ∈ (handle_aenter c5Manager c5TimeoutEnv).calls) ∧
        (handle_aenter c5Manager c5TimeoutEnv).manager.lease_id = some 7)) :=
  ⟨rfl, rfl, rfl, aenter_cleanup_on_failure c5Manager c5TimeoutEnv 10 7 rfl rfl rfl⟩

def c2Manager : EtcdLockManager := EtcdLockManager.new [1] (some 2) (some 10)

def c2Env : AenterEnv :=
  { connectResult := none
    leaseGrantResult := .ok 7
    timedOut := true
    tryLockResult := .ok [9]
    revokeResult := some (.other "transport error") }

/-- C2 counterexample: on the timeout path, a lease-revoke failure that is
not a gRPC status (e.g. a transport error) is silently swallowed — the
`if let Err(GRpcStatus(..))` at src/lock_manager.rs lines 130-136 does not
match it — and the lock-timeout error is raised instead of propagating the
revoke error. -/
theorem aenter_swallowed_revoke_error :
    (handle_aenter c2Manager c2Env).result = .error (.lockError lockTimeoutMsg) ∧
    (handle_aenter c2Manager c2Env).result ≠ .error (.clientError "transport error") := by
  decide

/-- C2 (amended): when the lock attempt exceeds the caller-supplied timeout,
`handle_aenter` aborts the keepalive task it spawned; the granted lease is
revoked, a "not found" revoke status is tolerated and any other gRPC-status
revoke error is propagated as `GRpcStatusError`, while revoke failures that
are not gRPC statuses are swallowed; in every non-propagating case the
dedicated `LockError` lock-timeout error is raised, which is distinct from
the generic client errors by construction. -/
theorem aenter_timeout_path (m : EtcdLockManager) (env : AenterEnv) (t lid : Int)
    (hconn : env.connectResult = none) (httl : m.ttl = some t)
    (hgrant : env.leaseGrantResult = .ok lid)
    (htime : env.timedOut = true) (hbound : m.timeout_seconds.isSome = true) :
    (handle_aenter m env).keepaliveSpawned = true ∧
    (handle_aenter m env).keepaliveAbortedAtReturn = true ∧
    (handle_aenter m env).result = .error
      (match env.revokeResult with
        | some (.grpcStatus code msg) =>
          if code ≠ notFoundCode then .grpcStatusError code msg
          else .lockError lockTimeoutMsg
        | _ => .lockError lockTimeoutMsg) := by
  cases hr : env.revokeResult with
  | none =>
    simp [handle_aenter, aenterAfterLease, hconn, httl, hgrant, htime, hbound, hr]
  | some e =>
    cases e with
    | other msg =>
      simp [handle_aenter, aenterAfterLease, hconn, httl, hgrant, htime, hbound, hr]
    | grpcStatus code msg =>
      by_cases hcode : code = notFoundCode
      · simp [handle_aenter, aenterAfterLease, hconn, httl, hgrant, htime, hbound, hr, hcode]
      · simp [handle_aenter, aenterAfterLease, hconn, httl, hgrant, htime, hbound, hr, hcode]

def c2PropagateEnv : AenterEnv :=
  { connectResult := none
    leaseGrantResult := .ok 7
    timedOut := true
    tryLockResult := .ok [9]
    revokeResult := some (.grpcStatus 14 "unavailable") }

/-- Witness for `aenter_timeout_path` at a concrete timed-out acquisition
whose lease revoke answers with a non-NotFound gRPC status. -/
theorem aenter_timeout_path_witness :
    c2PropagateEnv.connectResult = none ∧ c2Manager.ttl = some 10 ∧
    c2PropagateEnv.leaseGrantResult = .ok 7 ∧ c2PropagateEnv.timedOut = true ∧
    c2Manager.timeout_seconds.isSome = true ∧
    ((handle_aenter c2Manager c2PropagateEnv).keepaliveSpawned = true ∧
      (handle_aenter c2Manager c2PropagateEnv).keepaliveAbortedAtReturn = true ∧
      (handle_aenter c2Manager c2PropagateEnv).result = .error
        (match c2PropagateEnv.revokeResult with
          | some (.grpcStatus code msg) =>
            if code ≠ notFoundCode then .grpcStatusError code msg
            else .lockError lockTimeoutMsg
          | _ => .lockError lockTimeoutMsg)) :=
  ⟨rfl, rfl, rfl, rfl, rfl,
    aenter_timeout_path c2Manager c2PropagateEnv 10 7 rfl rfl rfl rfl rfl⟩

/-- Once the cursor of a `once` watch has yielded (its index is positive),
every further `__anext__` poll raises `StopAsyncIteration` and changes
nothing. -/
theorem sessionRun_stopped (n : Nat) (w : SessionState)
    (h1 : w.cursor.once = true) (h2 : 0 < w.cursor.index) :
    sessionRun w n = (List.replicate n AnextOut.stopIteration, w) := by
  induction n generalizing w with
  | zero => rfl
  | succ n ih =>
    have hstep : sessionAnext w = (AnextOut.stopIteration, w) := by
      simp [sessionAnext, cursorNext, h1, h2]
    simp [sessionRun, hstep, ih w h1 h2, List.replicate_succ]

/-- C8: for a watch constructed with `once = true` whose stream delivers a
first batch containing an event, the first `__anext__` poll yields exactly
that event and cancels the server-side watch; every one of the `n`
subsequent polls raises `StopAsyncIteration`, so exactly one event is
yielded over the cursor's lifetime. -/
theorem once_watch_single_event (e : WatchEvent) (es : List WatchEvent)
    (rest : List Batch) (n : Nat) :
    sessionRun
      { cursor := { stream := Batch.ok (e :: es) :: rest, events := [], index := 0, once := true }
        canceled := false } (n + 1) =
      (AnextOut.item e :: List.replicate n AnextOut.stopIteration,
        { cursor := { stream := rest, events := e :: es, index := 1, once := true }
          canceled := true }) := by
  have hstep : sessionAnext
      { cursor := { stream := Batch.ok (e :: es) :: rest, events := [], index := 0, once := true }
        canceled := false } =
      (AnextOut.item e,
        { cursor := { stream := rest, events := e :: es, index := 1, once := true }
          canceled := true }) := by
    simp [sessionAnext, cursorNext]
  have htail := sessionRun_stopped n
      { cursor := { stream := rest, events := e :: es, index := 1, once := true }
        canceled := true } rfl (by simp)
  simp [sessionRun, hstep, htail]

/-- Case analysis of one `cursorNext` step under the buffer invariant
`index ≤ events.length`: the `once` flag is preserved, the invariant is
preserved, the set of known events (`events ++ okFlatten stream`) is
preserved, a yield consumes exactly the head of the pending events and
advances the index by one, and every other outcome leaves both the index
and the pending events unchanged. -/
theorem cursorNext_cases (s : CursorState) (h1 : s.index ≤ s.events.length) :
    (cursorNext s).2.once = s.once ∧
    (cursorNext s).2.index ≤ (cursorNext s).2.events.length ∧
    ((cursorNext s).2.events ++ okFlatten (cursorNext s).2.stream =
      s.events ++ okFlatten s.stream) ∧
    (∀ e, (cursorNext s).1 = NextOutcome.yield e →
      (cursorNext s).2.index = s.index + 1 ∧
      pendingOf s = e :: pendingOf (cursorNext s).2) ∧
    ((∀ e, (cursorNext s).1 ≠ NextOutcome.yield e) →
      ((cursorNext s).2.index = s.index ∧ pendingOf (cursorNext s).2 = pendingOf s)) := by
  by_cases honce : (s.once && decide (s.index > 0)) = true
  · simp [cursorNext, honce, h1]
  · rw [Bool.not_eq_true] at honce
    cases hget : s.events[s.index]? with
    | some e =>
      rcases List.getElem?_eq_some.mp hget with ⟨hlt, hidx⟩
      have hdrop : s.events.drop s.index = e :: s.events.drop (s.index + 1) := by
        rw [List.drop_eq_getElem_cons hlt, hidx]
      refine ⟨?_, ?_, ?_, ?_, ?_⟩
      · simp [cursorNext, honce, hget]
      · simp [cursorNext, honce, hget]
        omega
      · simp [cursorNext, honce, hget]
      · intro e' he'
        have he : e' = e := by
          simpa [cursorNext, honce, hget] using he'.symm
        subst he
        refine ⟨by simp [cursorNext, honce, hget], ?_⟩
        simp [cursorNext, honce, hget, pendingOf, hdrop]
      · intro hn
        exact absurd (by simp [cursorNext, honce, hget]) (hn e)
    | none =>
      have hlen : s.events.length ≤ s.index := List.getElem?_eq_none_iff.mp hget
      have heq : s.index = s.events.length := le_antisymm h1 hlen
      cases hstr : s.stream with
      | nil =>
        simp [cursorNext, honce, hget, hstr, pendingOf, h1]
      | cons b rest =>
        cases b with
        | error er =>
          simp [cursorNext, honce, hget, hstr, pendingOf, okFlatten, h1]
        | ok evs =>
          by_cases hemp : (s.events ++ evs).isEmpty = true
          · have hnil : s.events = [] ∧ evs = [] := by
              rw [List.isEmpty_iff, List.append_eq_nil] at hemp
              exact hemp
            simp [cursorNext, honce, hget, hstr, hemp, pendingOf, okFlatten,
              hnil.1, hnil.2, heq]
          · rw [Bool.not_eq_true] at hemp
            cases hget2 : (s.events ++ evs)[s.index]? with
            | some e =>
              rcases List.getElem?_eq_some.mp hget2 with ⟨hlt2, hidx2⟩
              have hlt2' : s.index < s.events.length + evs.length := by
                rw [List.length_append] at hlt2
                exact hlt2
              have hdropApp : (s.events ++ evs).drop s.index =
                  e :: (s.events ++ evs).drop (s.index + 1) := by
                rw [List.drop_eq_getElem_cons hlt2, hidx2]
              have hdropIdx : (s.events ++ evs).drop s.index = evs := by
                rw [heq]
                exact List.drop_left _ _
              have hevs : evs = e :: (s.events ++ evs).drop (s.index + 1) :=
                hdropIdx.symm.trans hdropApp
              have hdropOwn : s.events.drop s.index = [] := by
                rw [heq, List.drop_length]
              refine ⟨?_, ?_, ?_, ?_, ?_⟩
              · simp [cursorNext, honce, hget, hstr, hemp, hget2]
              · simp [cursorNext, honce, hget, hstr, hemp, hget2]
                omega
              · simp [cursorNext, honce, hget, hstr, hemp, hget2, okFlatten]
              · intro e' he'
                have he : e' = e := by
                  simpa [cursorNext, honce, hget, hstr, hemp, hget2] using he'.symm
                subst he
                refine ⟨by simp [cursorNext, honce, hget, hstr, hemp, hget2], ?_⟩
                have hnext2 : (cursorNext s).2 =
                    { stream := rest, events := s.events ++ evs,
                      index := s.index + 1, once := s.once } := by
                  simp [cursorNext, honce, hget, hstr, hemp, hget2]
                rw [hnext2]
                simp only [pendingOf, okFlatten, hstr]
                rw [hdropOwn]
                conv_lhs => rw [hevs]
                simp
              · intro hn
                exact absurd (by simp [cursorNext, honce, hget, hstr, hemp, hget2]) (hn e)
            | none =>
              have hlen2 : (s.events ++ evs).length ≤ s.index :=
                List.getElem?_eq_none_iff.mp hget2
              have hevs : evs = [] := by
                rw [List.length_append] at hlen2
                have : evs.length = 0 := by omega
                exact List.length_eq_zero.mp this
              subst hevs
              simp only [List.append_nil] at hemp hget2 hlen2
              have hne : ¬ s.events = [] := by
                simpa using hemp
              have hdropOwn : s.events.drop s.index = [] := by
                rw [heq, List.drop_length]
              refine ⟨?_, ?_, ?_, ?_, ?_⟩
              · simp [cursorNext, honce, hget, hstr, hne, hget2]
              · simp [cursorNext, honce, hget, hstr, hne, hget2]
                omega
              · simp [cursorNext, honce, hget, hstr, hne, hget2, okFlatten]
              · intro e' he'
                simp [cursorNext, honce, hget, hstr, hne, hget2] at he'
              · intro hn
                simp [cursorNext, honce, hget, hstr, hne, hget2, pendingOf, okFlatten,
                  hdropOwn]

/-- Invariant of an iterated run of `cursorNext` in non-`once` mode: the
events yielded so far followed by the still-pending events are exactly the
pending events of the start state; the index advances by exactly one per
yielded event; the known events are preserved; and the buffer invariant is
maintained. -/
theorem cursorRun_pending (n : Nat) (s : CursorState) (h0 : s.once = false)
    (h1 : s.index ≤ s.events.length) :
    yieldsOf (cursorRun s n).1 ++ pendingOf (cursorRun s n).2 = pendingOf s ∧
    (cursorRun s n).2.index = s.index + (yieldsOf (cursorRun s n).1).length ∧
    ((cursorRun s n).2.events ++ okFlatten (cursorRun s n).2.stream =
      s.events ++ okFlatten s.stream) ∧
    (cursorRun s n).2.once = false ∧
    (cursorRun s n).2.index ≤ (cursorRun s n).2.events.length := by
  induction n generalizing s with
  | zero =>
    simp [cursorRun, yieldsOf, h0, h1]
  | succ n ih =>
    obtain ⟨gonce, gbound, gemit, gyield, gnonyield⟩ := cursorNext_cases s h1
    have h0' : (cursorNext s).2.once = false := by rw [gonce, h0]
    obtain ⟨i1, i2, i3, i4, i5⟩ := ih (cursorNext s).2 h0' gbound
    have hrun1 : (cursorRun s (n + 1)).1 =
        (cursorNext s).1 :: (cursorRun (cursorNext s).2 n).1 := rfl
    have hrun2 : (cursorRun s (n + 1)).2 = (cursorRun (cursorNext s).2 n).2 := rfl
    rw [hrun1, hrun2]
    cases hout : (cursorNext s).1 with
    | yield e =>
      obtain ⟨hidx, hpend⟩ := gyield e hout
      refine ⟨?_, ?_, i3.trans gemit, i4, i5⟩
      · simp only [yieldsOf, List.cons_append]
        rw [i1, hpend]
      · simp only [yieldsOf, List.length_cons]
        omega
    | err e =>
      obtain ⟨hidx, hpend⟩ := gnonyield (by rw [hout]; intro e' h; cases h)
      refine ⟨?_, ?_, i3.trans gemit, i4, i5⟩
      · simp only [yieldsOf]
        rw [i1, hpend]
      · simp only [yieldsOf]
        omega
    | endOfStream =>
      obtain ⟨hidx, hpend⟩ := gnonyield (by rw [hout]; intro e' h; cases h)
      refine ⟨?_, ?_, i3.trans gemit, i4, i5⟩
      · simp only [yieldsOf]
        rw [i1, hpend]
      · simp only [yieldsOf]
        omega
    | panic =>
      obtain ⟨hidx, hpend⟩ := gnonyield (by rw [hout]; intro e' h; cases h)
      refine ⟨?_, ?_, i3.trans gemit, i4, i5⟩
      · simp only [yieldsOf]
        rw [i1, hpend]
      · simp only [yieldsOf]
        omega

/-- A freshly constructed cursor over a scripted stream
(`PyWatchEventStream::new`, src/watch_event_stream.rs lines 17-24). -/
def watchCursor0 (batches : List Batch) : CursorState :=
  { stream := batches, events := [], index := 0, once := false }

/-- C7: for a watch with `once = false`, any number of `next()` calls on a
fresh cursor yields exactly a prefix of the events the backing store emits
(`okFlatten batches`), in emission order, with no gaps and no duplicates:
the yields so far plus the pending events are the full emission sequence,
the yielded list is literally a `take` of it, the index advances by exactly
one per yielded event, and the buffer remains the emission sequence minus
the still-undelivered stream suffix (append-only, arrival order). -/
theorem watch_events_ordered (batches : List Batch) (n : Nat) :
    yieldsOf (cursorRun (watchCursor0 batches) n).1 ++
        pendingOf (cursorRun (watchCursor0 batches) n).2 = okFlatten batches ∧
    yieldsOf (cursorRun (watchCursor0 batches) n).1 =
      (okFlatten batches).take (yieldsOf (cursorRun (watchCursor0 batches) n).1).length ∧
    (cursorRun (watchCursor0 batches) n).2.index =
      (yieldsOf (cursorRun (watchCursor0 batches) n).1).length ∧
    ((cursorRun (watchCursor0 batches) n).2.events ++
        okFlatten (cursorRun (watchCursor0 batches) n).2.stream = okFlatten batches) := by
  obtain ⟨i1, i2, i3, _, _⟩ :=
    cursorRun_pending n (watchCursor0 batches) rfl (by simp [watchCursor0])
  have hpend0 : pendingOf (watchCursor0 batches) = okFlatten batches := by
    simp [pendingOf, watchCursor0]
  have hemit0 : (watchCursor0 batches).events ++ okFlatten (watchCursor0 batches).stream =
      okFlatten batches := by
    simp [watchCursor0]
  have i1' : yieldsOf (cursorRun (watchCursor0 batches) n).1 ++
      pendingOf (cursorRun (watchCursor0 batches) n).2 = okFlatten batches :=
    hpend0 ▸ i1
  refine ⟨i1', ?_, by simpa [watchCursor0] using i2, i3.trans hemit0⟩
  rw [← i1']
  exact (List.take_left _ _).symm

/-- Running `N` enters before further operations raises the counter by `N`. -/
theorem runCtx_enters (N : Nat) (c : Int) (ops : List CtxOp) :
    runCtx c (List.replicate N CtxOp.enter ++ ops) = runCtx (c + N) ops := by
  induction N generalizing c with
  | zero => simp [runCtx]
  | succ N ih =>
    rw [List.replicate_succ, List.cons_append]
    have step : runCtx c (CtxOp.enter :: (List.replicate N CtxOp.enter ++ ops)) =
        runCtx (c + 1) (List.replicate N CtxOp.enter ++ ops) := rfl
    rw [step, ih]
    congr 1
    push_cast
    ring

/-- Running `N` exits from a counter equal to `N` returns `false` on every
exit but the last, `true` on the last one, and ends at zero. -/
theorem runCtx_exits (N : Nat) (c : Int) (hc : c = N) (h : 1 ≤ N) :
    (runCtx c (List.replicate N CtxOp.exit)).2 =
      List.replicate (N - 1) false ++ [true] ∧
    (runCtx c (List.replicate N CtxOp.exit)).1 = 0 := by
  induction N generalizing c with
  | zero => omega
  | succ N ih =>
    subst hc
    rcases Nat.eq_zero_or_pos N with h0 | hpos
    · subst h0
      refine ⟨?_, ?_⟩ <;> norm_num [runCtx, exit_context, List.replicate_succ]
    · have hc' : ((N + 1 : Nat) : Int) - 1 = (N : Int) := by push_cast; ring
      have hb : (exit_context ((N + 1 : Nat) : Int)).2 = false := by
        simp only [exit_context]
        rw [hc']
        simp only [decide_eq_false_iff_not]
        omega
      have h1 : (exit_context ((N + 1 : Nat) : Int)).1 = (N : Int) := hc'
      obtain ⟨ih1, ih2⟩ := ih (N : Int) rfl hpos
      simp only [List.replicate_succ, runCtx, h1, hb, ih1, ih2]
      constructor
      · have hsucc : N = N - 1 + 1 := by omega
        rw [Nat.add_sub_cancel]
        conv_rhs => rw [hsucc, List.replicate_succ]
        simp
      · simp

/-- Counter values observed during `N` enters followed by `ops` are
nonnegative provided the start value is nonnegative and the continuation's
values are. -/
theorem ctxTrace_enters_nonneg (N : Nat) (c : Int) (ops : List CtxOp)
    (hc : 0 ≤ c)
    (hops : ∀ x ∈ ctxTrace (c + N) ops, 0 ≤ x) :
    ∀ x ∈ ctxTrace c (List.replicate N CtxOp.enter ++ ops), 0 ≤ x := by
  induction N generalizing c with
  | zero =>
    simpa using hops
  | succ N ih =>
    rw [List.replicate_succ, List.cons_append]
    have step : ctxTrace c (CtxOp.enter :: (List.replicate N CtxOp.enter ++ ops)) =
        c :: ctxTrace (c + 1) (List.replicate N CtxOp.enter ++ ops) := rfl
    rw [step]
    intro x hx
    rcases List.mem_cons.mp hx with hx | hx
    · omega
    · refine ih (c + 1) (by omega) ?_ x hx
      have harith : c + 1 + (N : Int) = c + ((N + 1 : Nat) : Int) := by push_cast; ring
      rw [harith]
      exact hops

/-- Counter values observed during `N` exits from a counter equal to `N`
are nonnegative. -/
theorem ctxTrace_exits_nonneg (N : Nat) (c : Int) (hc : c = N) :
    ∀ x ∈ ctxTrace c (List.replicate N CtxOp.exit), 0 ≤ x := by
  induction N generalizing c with
  | zero =>
    subst hc
    intro x hx
    simp [ctxTrace] at hx
    omega
  | succ N ih =>
    subst hc
    rw [List.replicate_succ]
    have step : ctxTrace ((N + 1 : Nat) : Int) (CtxOp.exit :: List.replicate N CtxOp.exit) =
        ((N + 1 : Nat) : Int) ::
          ctxTrace (exit_context ((N + 1 : Nat) : Int)).1 (List.replicate N CtxOp.exit) := rfl
    rw [step]
    have h1 : (exit_context ((N + 1 : Nat) : Int)).1 = (N : Int) := by
      simp only [exit_context]
      push_cast
      ring
    rw [h1]
    intro x hx
    rcases List.mem_cons.mp hx with hx | hx
    · omega
    · exact ih (N : Int) rfl x hx

/-- C9 (spec-modelled): for every matched sequence of `N` enters followed by
`N` exits starting from a zero active-context count, `exit_context` returns
`false` on every exit but the last and `true` exactly on the `N`-th exit
(so `true` is returned exactly once), the final count is zero, and the
count never goes negative at any point of the sequence. -/
theorem exit_context_true_once (N : Nat) (h : 1 ≤ N) :
    (runCtx 0 (List.replicate N CtxOp.enter ++ List.replicate N CtxOp.exit)).2 =
      List.replicate (N - 1) false ++ [true] ∧
    ((runCtx 0 (List.replicate N CtxOp.enter ++ List.replicate N CtxOp.exit)).2).count true
      = 1 ∧
    (runCtx 0 (List.replicate N CtxOp.enter ++ List.replicate N CtxOp.exit)).1 = 0 ∧
    ∀ x ∈ ctxTrace 0 (List.replicate N CtxOp.enter ++ List.replicate N CtxOp.exit),
      0 ≤ x := by
  have henters := runCtx_enters N 0 (List.replicate N CtxOp.exit)
  have hzero : (0 : Int) + (N : Int) = (N : Int) := by ring
  rw [hzero] at henters
  obtain ⟨hres, hfin⟩ := runCtx_exits N (N : Int) rfl h
  refine ⟨?_, ?_, ?_, ?_⟩
  · rw [henters, hres]
  · rw [henters, hres]
    simp [List.count_replicate]
  · rw [henters, hfin]
  · refine ctxTrace_enters_nonneg N 0 _ le_rfl ?_
    rw [hzero]
    exact ctxTrace_exits_nonneg N (N : Int) rfl

/-- Witness for `exit_context_true_once` with three enters and three exits. -/
theorem exit_context_true_once_witness :
    1 ≤ 3 ∧
    ((runCtx 0 (List.replicate 3 CtxOp.enter ++ List.replicate 3 CtxOp.exit)).2 =
        List.replicate (3 - 1) false ++ [true] ∧
      ((runCtx 0 (List.replicate 3 CtxOp.enter ++ List.replicate 3 CtxOp.exit)).2).count true
        = 1 ∧
      (runCtx 0 (List.replicate 3 CtxOp.enter ++ List.replicate 3 CtxOp.exit)).1 = 0 ∧
      ∀ x ∈ ctxTrace 0 (List.replicate 3 CtxOp.enter ++ List.replicate 3 CtxOp.exit),
        0 ≤ x) :=
  ⟨by decide, exit_context_true_once 3 (by decide)⟩
